import Mathlib

/-!
Shallow embedding of the request-handling and configuration code of the
`mcp_stateless_mcp_swarm` repository (Python): `server/config.py`,
`server/server.py`, `server/utils/config_validator.py`,
`server/utils/request_logging.py`, `server/utils/import_utils.py` and
`server/tools/example_tool.py`, together with theorems settling the
specification claims about them.

Python strings are modelled as Lean `String`s, with the handful of Python
string operations the code uses (`startswith`, `endswith`, slicing, `lower`,
`split`, `join`, `len`) given structurally recursive definitions over the
underlying character list so that concrete instances evaluate by `rfl`.
-/

/-! ## Python string primitives -/

/-- `pre.data` is an initial segment of `l` (helper for `str.startswith`). -/
def charsStartWith (pre l : List Char) : Bool :=
  match pre, l with
  | [], _ => true
  | _ :: _, [] => false
  | c :: cs, d :: ds => c = d && charsStartWith cs ds

/-- Python `s.startswith(pre)`. -/
def pyStartsWith (s pre : String) : Bool :=
  charsStartWith pre.data s.data

/-- Python `s.endswith(suf)`. -/
def pyEndsWith (s suf : String) : Bool :=
  charsStartWith suf.data.reverse s.data.reverse

/-- Python `s[n:]` for `n ≥ 0`. -/
def pyDrop (s : String) (n : Nat) : String :=
  ⟨s.data.drop n⟩

/-- Python `s[:-n]` (drop `n` characters from the right; empty when `n`
exceeds the length). -/
def pyDropRight (s : String) (n : Nat) : String :=
  ⟨s.data.take (s.data.length - n)⟩

/-- Python `s.lower()` (the code only compares against ASCII words, so ASCII
lowercasing is the relevant fragment). -/
def pyLower (s : String) : String :=
  ⟨s.data.map Char.toLower⟩

/-- Splitting a character list on a separator, keeping empty groups
(helper for `str.split`). -/
def splitChars (sep : Char) : List Char → List (List Char)
  | [] => [[]]
  | c :: rest =>
    let r := splitChars sep rest
    if c = sep then [] :: r
    else
      match r with
      | [] => [[c]]
      | grp :: groups => (c :: grp) :: groups

/-- Python `s.split(sep)` for a one-character separator: every occurrence
splits, empty pieces are kept, and the empty string yields `[""]`. -/
def pySplit (s : String) (sep : Char) : List String :=
  (splitChars sep s.data).map (fun cs => ⟨cs⟩)

/-- Python `sep.join(parts)`. -/
def pyJoin (sep : String) : List String → String
  | [] => ""
  | [x] => x
  | x :: xs => x ++ sep ++ pyJoin sep xs

/-! ## Python/YAML values -/

mutual
/-- A Python/YAML value, as produced by `yaml.safe_load` and passed around by
`server/config.py`.  Python `None` is `null`; dictionaries preserve insertion
order and have unique keys (lookup takes the first match). -/
inductive YVal where
  | null
  | bool (b : Bool)
  | int (n : Int)
  | str (s : String)
  | list (items : YList)
  | dict (entries : YDict)
  deriving Repr
/-- A sequence of YAML values (a Python list). -/
inductive YList where
  | nil
  | cons (v : YVal) (rest : YList)
  deriving Repr
/-- The entries of a YAML mapping (a Python dict), in insertion order. -/
inductive YDict where
  | nil
  | cons (k : String) (v : YVal) (rest : YDict)
  deriving Repr
end

/-- Python truthiness (`bool(v)`) for the modelled values: `None`, `False`,
`0`, `""`, `[]` and the empty dict are falsy, everything else truthy. -/
def YVal.truthy : YVal → Bool
  | .null => false
  | .bool b => b
  | .int n => n != 0
  | .str s => s != ""
  | .list .nil => false
  | .list (.cons _ _) => true
  | .dict .nil => false
  | .dict (.cons _ _ _) => true

/-- Python `dict.get(k)` on the entry list: first entry with key `k`,
`none` when absent. -/
def dictGet (k : String) : YDict → Option YVal
  | .nil => none
  | .cons k2 v rest => if k2 = k then some v else dictGet k rest

/-- The process environment, as read by `os.getenv`: `none` means the
variable is unset. -/
abbrev Env := String → Option String

/-! ## config.py -/

mutual
/-- `Config._substitute_env_vars` (config.py lines 51-68), the inner
`substitute` function applied to one value.  Returns the substituted value
together with the list of environment-variable names for which
`logger.warning("Environment variable not found: ...")` fired, in order.
A string is substituted exactly when `obj.startswith("${") and
obj.endswith("}")`; then `var_name = obj[2:-1]` and an unset variable leaves
the string verbatim with a warning. -/
def substVal (env : Env) : YVal → YVal × List String
  | .dict entries =>
    let r := substDict env entries
    (.dict r.1, r.2)
  | .list items =>
    let r := substList env items
    (.list r.1, r.2)
  | .str s =>
    if pyStartsWith s "$\x7b" && pyEndsWith s "\x7d" then
      let varName := pyDropRight (pyDrop s 2) 1
      match env varName with
      | none => (.str s, [varName])
      | some value => (.str value, [])
    else (.str s, [])
  | v => (v, [])

/-- `substitute` mapped over a YAML list (`[substitute(item) for item in obj]`). -/
def substList (env : Env) : YList → YList × List String
  | .nil => (.nil, [])
  | .cons v rest =>
    let r1 := substVal env v
    let r2 := substList env rest
    (.cons r1.1 r2.1, r1.2 ++ r2.2)

/-- `substitute` mapped over the entries of a YAML mapping
(`{k: substitute(v) for k, v in obj.items()}`). -/
def substDict (env : Env) : YDict → YDict × List String
  | .nil => (.nil, [])
  | .cons k v rest =>
    let r1 := substVal env v
    let r2 := substDict env rest
    (.cons k r1.1 r2.1, r1.2 ++ r2.2)
end

namespace Config

/-- The loop body of `Config.get` (config.py lines 85-96): walk the remaining
dotted segments; inside the loop, a non-dict node or a `None` fetched by
`value.get(k)` (covering both a missing key and a stored `None`) returns the
default. -/
def getLoop (dflt : YVal) : List String → YVal → YVal
  | [], v => v
  | k :: rest, .dict entries =>
    match dictGet k entries with
    | none => dflt
    | some .null => dflt
    | some v => getLoop dflt rest v
  | _ :: _, _ => dflt

/-- `Config.get` (config.py lines 70-96): dotted-path lookup with a default.
`keys = key.split('.')`, then the traversal loop. -/
def get (tree : YVal) (key : String) (dflt : YVal) : YVal :=
  getLoop dflt (pySplit key '.') tree

end Config

namespace Config

/-- `Config.is_authentication_enabled` (config.py lines 98-106).  The
environment value is lowercased and compared against two literal tuples; on
fall-through the function returns whatever Python value
`self.get('security.authentication.enabled', False)` produces (the source is
annotated `-> bool` but returns the stored value unchecked). -/
def is_authentication_enabled (env : Env) (tree : YVal) : YVal :=
  let env_enabled := pyLower ((env "AUTH_ENABLED").getD "")
  if env_enabled = "true" || env_enabled = "1" || env_enabled = "yes" then .bool true
  else if env_enabled = "false" || env_enabled = "0" || env_enabled = "no" then .bool false
  else get tree "security.authentication.enabled" (.bool false)

/-- Python `a or b`: `a` when truthy, otherwise `b`. -/
def pyOr (a b : YVal) : YVal :=
  if a.truthy then a else b

/-- `os.getenv(name)` as a Python value (`None` or `str`). -/
def getenvVal (env : Env) (name : String) : YVal :=
  match env name with
  | none => .null
  | some s => .str s

/-- `Config.get_auth_token` (config.py lines 108-111):
`os.getenv('AUTH_TOKEN') or self.get('security.authentication.bearer_token')`
(default `None`). -/
def get_auth_token (env : Env) (tree : YVal) : YVal :=
  pyOr (getenvVal env "AUTH_TOKEN") (get tree "security.authentication.bearer_token" .null)

/-- The successive values taken by the `self._config` reference during
`Config.reload` (config.py lines 113-117): the assignment
`self._config = self._load_config()` at line 115 stores the freshly parsed
(unsubstituted) tree `fileTree`, and the assignment `self._config =
substitute(self._config)` inside `_substitute_env_vars` (line 68) then stores
the substituted tree.  Each list element is a state of the object observable
by a reader of `self._config` from that assignment until the next one. -/
def reloadStates (env : Env) (fileTree : YVal) : List YVal :=
  let afterLoad := fileTree
  let afterSubst := (substVal env afterLoad).1
  [afterLoad, afterSubst]

end Config

/-! ## server.py : authentication middleware -/

/-- An inbound HTTP request as seen by the middleware: method, path, and the
value of the `Authorization` header (`none` when the header is absent from
the request). -/
structure Request where
  method : String
  path : String
  authorization : Option String
deriving Repr

/-- `request.headers.get("Authorization")` as a Python value (`None` or
`str`), so that the guard `if not auth_header` is Python truthiness. -/
def Request.authHeaderVal (req : Request) : YVal :=
  match req.authorization with
  | none => .null
  | some s => .str s

/-- Python `token != expected` specialised to a `str` left operand: equal
exactly when the right operand is an equal `str` (comparison with `None` or
any other type is unequal). -/
def pyEqStr (s : String) (v : YVal) : Bool :=
  match v with
  | .str t => s = t
  | _ => false

/-- Outcome of `AuthenticationMiddleware.dispatch` (server.py lines 124-167):
either the request is forwarded to the inner chain (`await call_next`), or a
`JSONResponse` with the given status code and JSON body short-circuits it. -/
inductive AuthOutcome where
  | forwarded
  | rejected (status : Nat) (body : YVal)
deriving Repr

/-- The body of the 401 missing-header rejection (server.py lines 141-144). -/
def missingAuthBody : YVal :=
  .dict (.cons "error" (.str "Missing Authorization header") .nil)

/-- The body of the 401 malformed-header rejection (server.py lines 149-152). -/
def invalidFormatBody : YVal :=
  .dict (.cons "error" (.str "Invalid Authorization header format. Use: Bearer <token>") .nil)

/-- The body of the 403 wrong-token rejection (server.py lines 160-163). -/
def invalidTokenBody : YVal :=
  .dict (.cons "error" (.str "Invalid authentication token") .nil)

/-- The auth bypass allow-list of server.py line 129. -/
def allowListedPaths : List String := ["/healthz", "/health", "/version", "/_info"]

namespace AuthenticationMiddleware

/-- `AuthenticationMiddleware.dispatch` (server.py lines 124-167), decision
part: allow-listed paths and disabled authentication forward unconditionally;
then the header is checked (`if not auth_header` — Python truthiness, so an
absent header and an empty-string header take the same branch), then the
`Bearer ` prefix, then `token = auth_header[7:]` is compared against
`config.get_auth_token()`. -/
def dispatch (env : Env) (tree : YVal) (req : Request) : AuthOutcome :=
  if allowListedPaths.contains req.path then .forwarded
  else if !(Config.is_authentication_enabled env tree).truthy then .forwarded
  else if !req.authHeaderVal.truthy then
    .rejected 401 missingAuthBody
  else
    let auth_header := (req.authorization).getD ""
    if !(pyStartsWith auth_header "Bearer ") then
      .rejected 401 invalidFormatBody
    else
      let token := pyDrop auth_header 7
      let expected_token := Config.get_auth_token env tree
      if !(pyEqStr token expected_token) then
        .rejected 403 invalidTokenBody
      else .forwarded

end AuthenticationMiddleware

/-- Claim C1 of the specification as written, as a decision function (a
spec-side definition, for comparison with
`AuthenticationMiddleware.dispatch`): an allow-listed path is forwarded with
no credential check; with authentication enabled, an absent `Authorization`
header gives the 401 missing-header rejection; a present header not starting
with `Bearer ` gives the 401 format rejection; a token unequal to the
configured expected token gives the 403 rejection; otherwise forwarded. -/
def claimAuthOriginal (env : Env) (tree : YVal) (req : Request) : AuthOutcome :=
  if allowListedPaths.contains req.path then .forwarded
  else if !(Config.is_authentication_enabled env tree).truthy then .forwarded
  else
    match req.authorization with
    | none => .rejected 401 missingAuthBody
    | some h =>
      if !(pyStartsWith h "Bearer ") then .rejected 401 invalidFormatBody
      else if !(pyEqStr (pyDrop h 7) (Config.get_auth_token env tree)) then
        .rejected 403 invalidTokenBody
      else .forwarded

/-- Claim C1 as amended (spec-side definition): identical to
`claimAuthOriginal` except that a header that is present but empty is
classified with the missing-header rejection, matching the Python truthiness
test `if not auth_header` of the source. -/
def claimAuthAmended (env : Env) (tree : YVal) (req : Request) : AuthOutcome :=
  if allowListedPaths.contains req.path then .forwarded
  else if !(Config.is_authentication_enabled env tree).truthy then .forwarded
  else
    match req.authorization with
    | none => .rejected 401 missingAuthBody
    | some h =>
      if h = "" then .rejected 401 missingAuthBody
      else if !(pyStartsWith h "Bearer ") then .rejected 401 invalidFormatBody
      else if !(pyEqStr (pyDrop h 7) (Config.get_auth_token env tree)) then
        .rejected 403 invalidTokenBody
      else .forwarded

/-! ## Middleware chain -/

/-- A log line emitted by `RequestLoggingMiddleware` (request_logging.py):
the arrival line `[cid] → METHOD path` and the completion line
`[cid] ← STATUS METHOD path (...ms)` at the given level. -/
inductive LogEvent where
  | reqArrow (cid : String) (method : String) (path : String)
  | reqDone (cid : String) (level : String) (status : Nat) (method : String) (path : String)
deriving Repr, DecidableEq

/-- An HTTP response: status code, JSON/text body, and headers in the order
they were attached. -/
structure Response where
  status : Nat
  body : YVal
  headers : List (String × String)
deriving Repr

/-- A handler: maps a request to a response plus the log lines emitted while
producing it. -/
abbrev Handler := Request → Response × List LogEvent

/-- `AuthenticationMiddleware` as a wrapper around the inner chain: a
rejection produces the `JSONResponse` (fresh headers) without invoking the
inner handler. -/
def authMW (env : Env) (tree : YVal) (next : Handler) : Handler := fun req =>
  match AuthenticationMiddleware.dispatch env tree req with
  | .forwarded => next req
  | .rejected status body => ({ status := status, body := body, headers := [] }, [])

/-- `RequestLoggingMiddleware.dispatch` (request_logging.py lines 19-59):
generates a correlation id `cid` (a `uuid4` prefix, taken here as a
parameter), skips logging entirely for `/healthz` and `/health`, otherwise
logs the arrival line, runs the inner chain, logs the completion line at a
level classified by status (≥500 error, ≥400 warning, else info), and
attaches `X-Correlation-ID` to the response headers.  (The `except` branch
re-raises after logging; exceptions are not modelled, no claim depends on
them.) -/
def loggingMW (cid : String) (next : Handler) : Handler := fun req =>
  if ["/healthz", "/health"].contains req.path then next req
  else
    let r := next req
    let level := if r.1.status ≥ 500 then "error" else if r.1.status ≥ 400 then "warning" else "info"
    ({ r.1 with headers := r.1.headers ++ [("X-Correlation-ID", cid)] },
      LogEvent.reqArrow cid req.method req.path :: r.2 ++ [LogEvent.reqDone cid level r.1.status req.method req.path])

/-- `HostnameHeaderMiddleware.dispatch` (server.py lines 184-190): runs the
inner chain, then sets `X-Served-By` on the already-produced response;
status, body and log output are untouched. -/
def hostnameMW (hostname : String) (next : Handler) : Handler := fun req =>
  let r := next req
  ({ r.1 with headers := r.1.headers ++ [("X-Served-By", hostname)] }, r.2)

/-- The third-party Starlette `CORSMiddleware` (server.py lines 197-203),
modelled for simple (non-preflight) requests: pass through and attach the
`Access-Control-Allow-Origin` header to the response. -/
def corsMW (next : Handler) : Handler := fun req =>
  let r := next req
  ({ r.1 with headers := r.1.headers ++ [("Access-Control-Allow-Origin", "*")] }, r.2)

/-- Tags for the four middleware classes registered by server.py. -/
inductive MWTag where
  | auth
  | logging
  | hostname
  | cors
deriving Repr, DecidableEq

/-- Starlette `app.add_middleware` (third-party): inserts the new middleware
at the front of `user_middleware`; when the stack is built, the front of that
list becomes the outermost wrapper, so the middleware added last wraps all
the ones added before it. -/
def addMiddleware (stack : List MWTag) (m : MWTag) : List MWTag :=
  m :: stack

/-- The middleware registrations performed by server.py lines 170-203, in
source order: `AuthenticationMiddleware` (only when
`config.is_authentication_enabled()` holds at startup), then
`RequestLoggingMiddleware`, then `HostnameHeaderMiddleware`, then
`CORSMiddleware`.  The result lists the chain outermost-first. -/
def serverMiddlewareStack (authEnabledAtStartup : Bool) : List MWTag :=
  let s0 : List MWTag := []
  let s1 := if authEnabledAtStartup then addMiddleware s0 .auth else s0
  let s2 := addMiddleware s1 .logging
  let s3 := addMiddleware s2 .hostname
  let s4 := addMiddleware s3 .cors
  s4

/-- The wrapper function each tag denotes. -/
def interpMW (env : Env) (tree : YVal) (cid hostname : String) : MWTag → Handler → Handler
  | .auth => authMW env tree
  | .logging => loggingMW cid
  | .hostname => hostnameMW hostname
  | .cors => corsMW

/-- Compose a middleware list (outermost first) around an inner handler. -/
def applyStack (interp : MWTag → Handler → Handler) : List MWTag → Handler → Handler
  | [], h => h
  | m :: rest, h => interp m (applyStack interp rest h)

/-- The full request pipeline assembled by server.py: the registered
middleware stack composed around the inner application (routes plus the
mounted MCP dispatcher), with the correlation id and hostname as parameters
for the nondeterministic `uuid4` and `socket.gethostname()`. -/
def serverPipeline (env : Env) (tree : YVal) (cid hostname : String) (inner : Handler) : Handler :=
  applyStack (interpMW env tree cid hostname)
    (serverMiddlewareStack (Config.is_authentication_enabled env tree).truthy) inner

/-! ## utils/config_validator.py -/

/-- The number of entries of a YAML list. -/
def YList.length : YList → Nat
  | .nil => 0
  | .cons _ rest => rest.length + 1

/-- The number of entries of a YAML mapping. -/
def YDict.length : YDict → Nat
  | .nil => 0
  | .cons _ _ rest => rest.length + 1

/-- The `echo` tool (example_tool.py lines 13-56).  `rep` is the source
parameter `repeat` (a Lean keyword).  The `isinstance(repeat, int)` guard is
subsumed by the `Int` type of `rep`; the surrounding `try` can only be left
via the `return` statements shown, so the function is total and
string-valued.  Note the source returns the literal text
`"Error: repeat cannot exceed 10 (got {repeat})"` — the braces are part of
the string (a missing f-prefix in the source). -/
def echo (message : String) (rep : Int) : String :=
  if message = "" then "Error: message cannot be empty"
  else if rep < 1 then "Error: repeat must be at least 1"
  else if rep > 10 then "Error: repeat cannot exceed 10 (got \x7brepeat\x7d)"
  else pyJoin "\n" (List.replicate rep.toNat message)

/-- Calling `echo` with the `repeat` argument absent: the Python default
`repeat: int = 1` applies. -/
def echoNoRepeatArg (message : String) : String :=
  echo message 1

/-! ## Auto-discovery (server.py import_submodules and
utils/import_utils.py import_submodules) -/

/-- A module file of a plugin directory, in iteration order: its stem, whether
importing it raises, and the capabilities its import registers with the MCP
registry (via the `@mcp.tool()`-style decorators it runs at import time).  A
raising module registers nothing (the failure precedes registration, as in
the spec example of a module that raises on import). -/
structure PluginModule where
  name : String
  raisesOnImport : Bool
  caps : List String
deriving Repr, DecidableEq

/-- `import_submodules` of server.py (lines 46-56) — the version the startup
sequence actually calls (server.py line 100).  The whole `for` loop over
`pkgutil.iter_modules` sits inside a single `try`; underscore-named modules
are skipped, each other module is imported (appending its registrations to
the shared registry), and the first module whose import raises sends control
to the `except` around the loop, which logs and falls off the end — later
siblings are never imported.  Returns the final registry. -/
def import_submodules_server (registry : List String) : List PluginModule → List String
  | [] => registry
  | m :: rest =>
    if pyStartsWith m.name "_" then import_submodules_server registry rest
    else if m.raisesOnImport then registry
    else import_submodules_server (registry ++ m.caps) rest

/-- `import_submodules` of utils/import_utils.py (lines 16-42) — not called
by server.py.  Iterates the `.py` files of the directory, skipping
`__init__`, with a per-module `try`/`except` so a raising module is logged
and the loop continues with its siblings. -/
def import_submodules_utils (registry : List String) : List PluginModule → List String
  | [] => registry
  | m :: rest =>
    if m.name = "__init__" then import_submodules_utils registry rest
    else if m.raisesOnImport then import_submodules_utils registry rest
    else import_submodules_utils (registry ++ m.caps) rest

/-- The capabilities of the modules that never get skipped by the underscore
filter of server.py `import_submodules`, concatenated in order. -/
def capsConcat : List PluginModule → List String
  | [] => []
  | m :: rest => m.caps ++ capsConcat rest

/-- The modules whose stem does not begin with an underscore (the
`not modname.startswith('_')` filter of server.py line 51). -/
def nonUnderscore (mods : List PluginModule) : List PluginModule :=
  mods.filter (fun m => !(pyStartsWith m.name "_"))

/-- A module file that utils/import_utils.py `import_submodules` actually
imports successfully: not the package marker `__init__` and not raising. -/
def utilsEligible (m : PluginModule) : Bool :=
  (m.name != "__init__") && !m.raisesOnImport

/-- Substring containment over character lists (helper for Python
`sub in s`). -/
def charsContain (sub : List Char) : List Char → Bool
  | [] => charsStartWith sub []
  | c :: rest => charsStartWith sub (c :: rest) || charsContain sub rest

/-- Python `sub in s` for strings. -/
def pyContains (s sub : String) : Bool :=
  charsContain sub.data s.data

/-- Spec-side reading of "the full dotted path resolves" (used to state claim
C7 in the words of the specification, not taken from the source): follow every
segment through mapping nodes; `some v` exactly when each segment is present,
`none` when a segment is missing or a non-mapping node is met mid-path. -/
def specResolvePath : List String → YVal → Option YVal
  | [], v => some v
  | k :: rest, .dict entries =>
    match dictGet k entries with
    | some v => specResolvePath rest v
    | none => none
  | _ :: _, _ => none

/-- `specResolvePath` on the dotted segments of a key. -/
def specResolve (tree : YVal) (key : String) : Option YVal :=
  specResolvePath (pySplit key '.') tree

/-! ## Helper lemmas -/

/-- `splitChars` always yields at least one group. -/
theorem splitChars_ne_nil (sep : Char) : ∀ l, splitChars sep l ≠ []
  | [] => by simp [splitChars]
  | c :: rest => by
    simp only [splitChars]
    split
    · simp
    · split
      · simp
      · simp

/-- Python `str.split` always yields at least one piece. -/
theorem pySplit_ne_nil (s : String) (sep : Char) : pySplit s sep ≠ [] := by
  unfold pySplit
  intro h
  exact splitChars_ne_nil sep s.data (List.map_eq_nil_iff.mp h)

/-- The traversal loop of `Config.get` against the spec-side notion of path
resolution: a failing resolution yields the default, a resolution to `null`
(on a nonempty path) yields the default, and a resolution to a non-null
value yields that value. -/
theorem getLoop_resolve : ∀ (ks : List String) (tree dflt : YVal),
    (specResolvePath ks tree = none → Config.getLoop dflt ks tree = dflt)
    ∧ (ks ≠ [] → specResolvePath ks tree = some .null → Config.getLoop dflt ks tree = dflt)
    ∧ (∀ v, specResolvePath ks tree = some v → v ≠ .null → Config.getLoop dflt ks tree = v)
  | [], tree, dflt => by
    refine ⟨fun h => ?_, fun hne _ => absurd rfl hne, fun v hv _ => ?_⟩
    · simp [specResolvePath] at h
    · simp only [specResolvePath, Option.some.injEq] at hv
      subst hv
      rfl
  | k :: rest, tree, dflt => by
    cases tree with
    | dict entries =>
      cases hdg : dictGet k entries with
      | none =>
        refine ⟨fun _ => ?_, fun _ _ => ?_, fun v hv _ => ?_⟩
        · simp [Config.getLoop, hdg]
        · simp [Config.getLoop, hdg]
        · simp [specResolvePath, hdg] at hv
      | some w =>
        cases w with
        | null =>
          have hloop : Config.getLoop dflt (k :: rest) (.dict entries) = dflt := by
            simp [Config.getLoop, hdg]
          refine ⟨fun _ => hloop, fun _ _ => hloop, fun v hv hvn => ?_⟩
          cases rest with
          | nil =>
            simp [specResolvePath, hdg] at hv
            exact absurd hv.symm hvn
          | cons r rs =>
            simp [specResolvePath, hdg] at hv
        | bool b =>
          have h := getLoop_resolve rest (.bool b) dflt
          have hloop : Config.getLoop dflt (k :: rest) (.dict entries)
              = Config.getLoop dflt rest (.bool b) := by
            simp [Config.getLoop, hdg]
          have hspec : specResolvePath (k :: rest) (.dict entries)
              = specResolvePath rest (.bool b) := by
            simp [specResolvePath, hdg]
          cases rest with
          | nil =>
            refine ⟨fun hn => ?_, fun _ hs => ?_, fun v hv hvn => ?_⟩
            · rw [hspec] at hn; simp [specResolvePath] at hn
            · rw [hspec] at hs; simp [specResolvePath] at hs
            · rw [hspec] at hv
              simp only [specResolvePath, Option.some.injEq] at hv
              subst hv
              rw [hloop]
              rfl
          | cons r rs =>
            refine ⟨fun hn => ?_, fun _ hs => ?_, fun v hv hvn => ?_⟩
            · rw [hloop]; exact h.1 (hspec ▸ hn)
            · rw [hloop]; exact h.2.1 (by simp) (hspec ▸ hs)
            · rw [hloop]; exact h.2.2 v (hspec ▸ hv) hvn
        | int n =>
          have h := getLoop_resolve rest (.int n) dflt
          have hloop : Config.getLoop dflt (k :: rest) (.dict entries)
              = Config.getLoop dflt rest (.int n) := by
            simp [Config.getLoop, hdg]
          have hspec : specResolvePath (k :: rest) (.dict entries)
              = specResolvePath rest (.int n) := by
            simp [specResolvePath, hdg]
          cases rest with
          | nil =>
            refine ⟨fun hn => ?_, fun _ hs => ?_, fun v hv hvn => ?_⟩
            · rw [hspec] at hn; simp [specResolvePath] at hn
            · rw [hspec] at hs; simp [specResolvePath] at hs
            · rw [hspec] at hv
              simp only [specResolvePath, Option.some.injEq] at hv
              subst hv
              rw [hloop]
              rfl
          | cons r rs =>
            refine ⟨fun hn => ?_, fun _ hs => ?_, fun v hv hvn => ?_⟩
            · rw [hloop]; exact h.1 (hspec ▸ hn)
            · rw [hloop]; exact h.2.1 (by simp) (hspec ▸ hs)
            · rw [hloop]; exact h.2.2 v (hspec ▸ hv) hvn
        | str s =>
          have h := getLoop_resolve rest (.str s) dflt
          have hloop : Config.getLoop dflt (k :: rest) (.dict entries)
              = Config.getLoop dflt rest (.str s) := by
            simp [Config.getLoop, hdg]
          have hspec : specResolvePath (k :: rest) (.dict entries)
              = specResolvePath rest (.str s) := by
            simp [specResolvePath, hdg]
          cases rest with
          | nil =>
            refine ⟨fun hn => ?_, fun _ hs => ?_, fun v hv hvn => ?_⟩
            · rw [hspec] at hn; simp [specResolvePath] at hn
            · rw [hspec] at hs; simp [specResolvePath] at hs
            · rw [hspec] at hv
              simp only [specResolvePath, Option.some.injEq] at hv
              subst hv
              rw [hloop]
              rfl
          | cons r rs =>
            refine ⟨fun hn => ?_, fun _ hs => ?_, fun v hv hvn => ?_⟩
            · rw [hloop]; exact h.1 (hspec ▸ hn)
            · rw [hloop]; exact h.2.1 (by simp) (hspec ▸ hs)
            · rw [hloop]; exact h.2.2 v (hspec ▸ hv) hvn
        | list items =>
          have h := getLoop_resolve rest (.list items) dflt
          have hloop : Config.getLoop dflt (k :: rest) (.dict entries)
              = Config.getLoop dflt rest (.list items) := by
            simp [Config.getLoop, hdg]
          have hspec : specResolvePath (k :: rest) (.dict entries)
              = specResolvePath rest (.list items) := by
            simp [specResolvePath, hdg]
          cases rest with
          | nil =>
            refine ⟨fun hn => ?_, fun _ hs => ?_, fun v hv hvn => ?_⟩
            · rw [hspec] at hn; simp [specResolvePath] at hn
            · rw [hspec] at hs; simp [specResolvePath] at hs
            · rw [hspec] at hv
              simp only [specResolvePath, Option.some.injEq] at hv
              subst hv
              rw [hloop]
              rfl
          | cons r rs =>
            refine ⟨fun hn => ?_, fun _ hs => ?_, fun v hv hvn => ?_⟩
            · rw [hloop]; exact h.1 (hspec ▸ hn)
            · rw [hloop]; exact h.2.1 (by simp) (hspec ▸ hs)
            · rw [hloop]; exact h.2.2 v (hspec ▸ hv) hvn
        | dict inner =>
          have h := getLoop_resolve rest (.dict inner) dflt
          have hloop : Config.getLoop dflt (k :: rest) (.dict entries)
              = Config.getLoop dflt rest (.dict inner) := by
            simp [Config.getLoop, hdg]
          have hspec : specResolvePath (k :: rest) (.dict entries)
              = specResolvePath rest (.dict inner) := by
            simp [specResolvePath, hdg]
          cases rest with
          | nil =>
            refine ⟨fun hn => ?_, fun _ hs => ?_, fun v hv hvn => ?_⟩
            · rw [hspec] at hn; simp [specResolvePath] at hn
            · rw [hspec] at hs; simp [specResolvePath] at hs
            · rw [hspec] at hv
              simp only [specResolvePath, Option.some.injEq] at hv
              subst hv
              rw [hloop]
              rfl
          | cons r rs =>
            refine ⟨fun hn => ?_, fun _ hs => ?_, fun v hv hvn => ?_⟩
            · rw [hloop]; exact h.1 (hspec ▸ hn)
            · rw [hloop]; exact h.2.1 (by simp) (hspec ▸ hs)
            · rw [hloop]; exact h.2.2 v (hspec ▸ hv) hvn
    | null =>
      exact ⟨fun _ => rfl, fun _ _ => rfl, fun v hv _ => by simp [specResolvePath] at hv⟩
    | bool b =>
      exact ⟨fun _ => rfl, fun _ _ => rfl, fun v hv _ => by simp [specResolvePath] at hv⟩
    | int n =>
      exact ⟨fun _ => rfl, fun _ _ => rfl, fun v hv _ => by simp [specResolvePath] at hv⟩
    | str s =>
      exact ⟨fun _ => rfl, fun _ _ => rfl, fun v hv _ => by simp [specResolvePath] at hv⟩
    | list items =>
      exact ⟨fun _ => rfl, fun _ _ => rfl, fun v hv _ => by simp [specResolvePath] at hv⟩

/-! ## Claim C7 -/

/-- Claim C7, amended: `Config.get` traverses the tree segment by segment and
returns the supplied default as soon as a segment is missing or a non-mapping
node is met mid-path, and also when the resolved value is the stored `None`
(a stored `None` is indistinguishable from a missing key); when the full path
resolves to a non-`None` value, it returns that stored value.  The function
is total, so it never raises. -/
theorem C7_config_get (tree : YVal) (key : String) (dflt : YVal) :
    (specResolve tree key = none → Config.get tree key dflt = dflt)
    ∧ (specResolve tree key = some .null → Config.get tree key dflt = dflt)
    ∧ (∀ v, specResolve tree key = some v → v ≠ .null → Config.get tree key dflt = v) := by
  have h := getLoop_resolve (pySplit key '.') tree dflt
  exact ⟨h.1, h.2.1 (pySplit_ne_nil key '.'), h.2.2⟩

/-- Witness for C7: on `{a: {b: "x"}}` the path `a.b` resolves and `get`
returns the stored value. -/
theorem C7_config_get_witness :
    Config.get (.dict (.cons "a" (.dict (.cons "b" (.str "x") .nil)) .nil)) "a.b" .null
      = .str "x" :=
  (C7_config_get (.dict (.cons "a" (.dict (.cons "b" (.str "x") .nil)) .nil)) "a.b" .null).2.2
    (.str "x") rfl (by simp)

/-- Counterexample to C7 as stated: on `{a: None}` the full path `a`
resolves to the stored value `None`, but `get` returns the supplied default
`42`, not the stored value. -/
theorem C7_counterexample :
    Config.get (.dict (.cons "a" .null .nil)) "a" (.int 42) = .int 42
    ∧ specResolve (.dict (.cons "a" .null .nil)) "a" = some .null
    ∧ (YVal.int 42) ≠ .null :=
  ⟨rfl, rfl, by simp⟩

/-! ## Claim C8 -/

/-- Claim C8: `is_authentication_enabled` returns true when `AUTH_ENABLED`
lowercases to one of true/1/yes regardless of the file value, false when it
lowercases to one of false/0/no, and otherwise (unset or unrecognized) falls
through to the configured `security.authentication.enabled`, which defaults
to false when the key is absent. -/
theorem C8_is_authentication_enabled (env : Env) (tree : YVal) :
    (∀ s, env "AUTH_ENABLED" = some s →
      (pyLower s = "true" ∨ pyLower s = "1" ∨ pyLower s = "yes") →
      Config.is_authentication_enabled env tree = .bool true)
    ∧ (∀ s, env "AUTH_ENABLED" = some s →
      (pyLower s = "false" ∨ pyLower s = "0" ∨ pyLower s = "no") →
      Config.is_authentication_enabled env tree = .bool false)
    ∧ (env "AUTH_ENABLED" = none →
      Config.is_authentication_enabled env tree
        = Config.get tree "security.authentication.enabled" (.bool false))
    ∧ (∀ s, env "AUTH_ENABLED" = some s →
      pyLower s ∉ (["true", "1", "yes", "false", "0", "no"] : List String) →
      Config.is_authentication_enabled env tree
        = Config.get tree "security.authentication.enabled" (.bool false))
    ∧ (env "AUTH_ENABLED" = none →
      specResolve tree "security.authentication.enabled" = none →
      Config.is_authentication_enabled env tree = .bool false) := by
  refine ⟨?_, ?_, ?_, ?_, ?_⟩
  · intro s hs hl
    unfold Config.is_authentication_enabled
    rw [hs]
    rcases hl with h | h | h <;> simp [Option.getD, h]
  · intro s hs hl
    unfold Config.is_authentication_enabled
    rw [hs]
    rcases hl with h | h | h <;> simp [Option.getD, h]
  · intro hs
    unfold Config.is_authentication_enabled
    rw [hs]
    simp [Option.getD, pyLower]
  · intro s hs hl
    simp only [List.mem_cons, List.not_mem_nil, or_false, not_or] at hl
    unfold Config.is_authentication_enabled
    rw [hs]
    simp [Option.getD, hl.1, hl.2.1, hl.2.2.1, hl.2.2.2.1, hl.2.2.2.2.1, hl.2.2.2.2.2]
  · intro hs hres
    unfold Config.is_authentication_enabled
    rw [hs]
    have h := (getLoop_resolve (pySplit "security.authentication.enabled" '.') tree
      (.bool false)).1 hres
    simp [Option.getD, pyLower]
    exact h

/-- Witness for C8: `AUTH_ENABLED=TRUE` (uppercase) forces true even though
the file stores `enabled: false`. -/
theorem C8_is_authentication_enabled_witness :
    Config.is_authentication_enabled
      (fun n => if n = "AUTH_ENABLED" then some "TRUE" else none)
      (.dict (.cons "security" (.dict (.cons "authentication"
        (.dict (.cons "enabled" (.bool false) .nil)) .nil)) .nil))
      = .bool true :=
  (C8_is_authentication_enabled
    (fun n => if n = "AUTH_ENABLED" then some "TRUE" else none)
    (.dict (.cons "security" (.dict (.cons "authentication"
      (.dict (.cons "enabled" (.bool false) .nil)) .nil)) .nil))).1
    "TRUE" rfl (Or.inl rfl)

/-! ## Claim C9 -/

/-- Claim C9: environment substitution applies exactly to string values that
start with the placeholder opener and end with the closing brace; such a
value is replaced by the environment value of the name between the braces,
or left verbatim with one warning when the variable is unset; any other
string — in particular one that merely embeds a placeholder, such as
`prefix ${NAME} suffix` — is left unchanged with no warning, and non-string
leaves are unchanged. -/
theorem C9_substitute (env : Env) :
    (∀ s, (pyStartsWith s "$\x7b" && pyEndsWith s "\x7d") = false →
      substVal env (.str s) = (.str s, []))
    ∧ (∀ s value, (pyStartsWith s "$\x7b" && pyEndsWith s "\x7d") = true →
      env (pyDropRight (pyDrop s 2) 1) = some value →
      substVal env (.str s) = (.str value, []))
    ∧ (∀ s, (pyStartsWith s "$\x7b" && pyEndsWith s "\x7d") = true →
      env (pyDropRight (pyDrop s 2) 1) = none →
      substVal env (.str s) = (.str s, [pyDropRight (pyDrop s 2) 1]))
    ∧ substVal env .null = (.null, [])
    ∧ (∀ b, substVal env (.bool b) = (.bool b, []))
    ∧ (∀ n, substVal env (.int n) = (.int n, []))
    ∧ substVal env (.str "prefix $\x7bNAME\x7d suffix")
        = (.str "prefix $\x7bNAME\x7d suffix", []) := by
  refine ⟨?_, ?_, ?_, rfl, fun b => rfl, fun n => rfl, ?_⟩
  · intro s h
    simp [substVal, h]
  · intro s value h henv
    simp [substVal, h, henv]
  · intro s h henv
    simp [substVal, h, henv]
  · have h : (pyStartsWith "prefix $\x7bNAME\x7d suffix" "$\x7b"
        && pyEndsWith "prefix $\x7bNAME\x7d suffix" "\x7d") = false := by rfl
    simp [substVal, h]

/-- Witness for C9: a whole-string placeholder with the variable set is
replaced by the environment value with no warning. -/
theorem C9_substitute_witness :
    substVal (fun n => if n = "NAME" then some "value1" else none) (.str "$\x7bNAME\x7d")
      = (.str "value1", []) :=
  (C9_substitute (fun n => if n = "NAME" then some "value1" else none)).2.1
    "$\x7bNAME\x7d" "value1" rfl rfl

/-! ## Claim C10 -/

/-- Claim C10: `get_auth_token` returns the `AUTH_TOKEN` environment value
exactly when it is set and non-empty; when unset or empty it returns the
configured `security.authentication.bearer_token`; and it returns `None`
when neither source yields a value. -/
theorem C10_get_auth_token (env : Env) (tree : YVal) :
    (∀ t, env "AUTH_TOKEN" = some t → t ≠ "" →
      Config.get_auth_token env tree = .str t)
    ∧ (env "AUTH_TOKEN" = none →
      Config.get_auth_token env tree
        = Config.get tree "security.authentication.bearer_token" .null)
    ∧ (env "AUTH_TOKEN" = some "" →
      Config.get_auth_token env tree
        = Config.get tree "security.authentication.bearer_token" .null)
    ∧ ((env "AUTH_TOKEN" = none ∨ env "AUTH_TOKEN" = some "") →
      specResolve tree "security.authentication.bearer_token" = none →
      Config.get_auth_token env tree = .null) := by
  have hval : ∀ h1 : env "AUTH_TOKEN" = none,
      Config.get_auth_token env tree
        = Config.get tree "security.authentication.bearer_token" .null := by
    intro h1
    unfold Config.get_auth_token Config.pyOr Config.getenvVal
    rw [h1]
    simp [YVal.truthy]
  have hval2 : ∀ h1 : env "AUTH_TOKEN" = some "",
      Config.get_auth_token env tree
        = Config.get tree "security.authentication.bearer_token" .null := by
    intro h1
    unfold Config.get_auth_token Config.pyOr Config.getenvVal
    rw [h1]
    simp [YVal.truthy]
  refine ⟨?_, hval, hval2, ?_⟩
  · intro t ht htne
    unfold Config.get_auth_token Config.pyOr Config.getenvVal
    rw [ht]
    simp [YVal.truthy, htne]
  · intro hor hres
    have hget : Config.get tree "security.authentication.bearer_token" .null = .null :=
      (getLoop_resolve (pySplit "security.authentication.bearer_token" '.') tree .null).1 hres
    rcases hor with h | h
    · rw [hval h, hget]
    · rw [hval2 h, hget]

/-- Witness for C10: a set, non-empty `AUTH_TOKEN` wins over the file
token. -/
theorem C10_get_auth_token_witness :
    Config.get_auth_token (fun n => if n = "AUTH_TOKEN" then some "envtok" else none)
      (.dict (.cons "security" (.dict (.cons "authentication"
        (.dict (.cons "bearer_token" (.str "filetok") .nil)) .nil)) .nil))
      = .str "envtok" :=
  (C10_get_auth_token (fun n => if n = "AUTH_TOKEN" then some "envtok" else none)
    (.dict (.cons "security" (.dict (.cons "authentication"
      (.dict (.cons "bearer_token" (.str "filetok") .nil)) .nil)) .nil))).1
    "envtok" rfl (by simp)

/-! ## Claim C2 -/

/-- Processing a raise-free segment of a directory listing with the server.py
`import_submodules`: registrations of its non-underscore modules are appended
to the registry and the scan continues. -/
theorem import_server_through : ∀ (pre : List PluginModule) (registry : List String)
    (rest : List PluginModule), (∀ x ∈ pre, x.raisesOnImport = false) →
    import_submodules_server registry (pre ++ rest)
      = import_submodules_server (registry ++ capsConcat (nonUnderscore pre)) rest
  | [], registry, rest, _ => by
    simp [nonUnderscore, capsConcat]
  | x :: pre, registry, rest, h => by
    have hx : x.raisesOnImport = false := h x (by simp)
    have hpre : ∀ y ∈ pre, y.raisesOnImport = false := fun y hy => h y (by simp [hy])
    by_cases hu : pyStartsWith x.name "_" = true
    · simp only [List.cons_append, import_submodules_server, hu, if_true, List.append_eq]
      rw [import_server_through pre registry rest hpre]
      simp [nonUnderscore, hu]
    · have hu2 : pyStartsWith x.name "_" = false := by
        simpa using hu
      simp only [List.cons_append, import_submodules_server, hu2, hx,
        Bool.false_eq_true, if_false, List.append_eq]
      rw [import_server_through pre (registry ++ x.caps) rest hpre]
      have hfil : nonUnderscore (x :: pre) = x :: nonUnderscore pre := by
        simp [nonUnderscore, hu2]
      rw [hfil]
      simp [capsConcat, List.append_assoc]

/-- The utils/import_utils.py `import_submodules` registers exactly the
capabilities of the eligible (non-`__init__`, non-raising) modules, in
order. -/
theorem import_utils_complete : ∀ (mods : List PluginModule) (registry : List String),
    import_submodules_utils registry mods
      = registry ++ capsConcat (mods.filter utilsEligible)
  | [], registry => by simp [import_submodules_utils, capsConcat]
  | x :: mods, registry => by
    by_cases h1 : x.name = "__init__"
    · have he : utilsEligible x = false := by simp [utilsEligible, h1]
      simp only [import_submodules_utils, h1, if_true]
      rw [import_utils_complete mods registry]
      simp [List.filter_cons, he]
    · by_cases h2 : x.raisesOnImport = true
      · have he : utilsEligible x = false := by simp [utilsEligible, h2]
        simp only [import_submodules_utils, h1, if_false, h2, if_true]
        rw [import_utils_complete mods registry]
        simp [List.filter_cons, he]
      · have h2f : x.raisesOnImport = false := by simpa using h2
        have he : utilsEligible x = true := by simp [utilsEligible, h1, h2f]
        simp only [import_submodules_utils, h1, if_false, h2f,
          Bool.false_eq_true, if_false]
        rw [import_utils_complete mods (registry ++ x.caps)]
        simp [List.filter_cons, he, capsConcat, List.append_assoc]

/-- Claim C2, amended: in the startup scan (the server.py version of
`import_submodules`, which the server actually calls), a module that raises
on import is caught at the directory level — startup does not crash and the
scans of the other plugin directories still run — but the remaining sibling
modules of the same directory are skipped: the registry ends with the
capabilities of the non-underscore modules preceding the failure.  The
unused utils/import_utils.py variant does recover per module and registers
every eligible sibling. -/
theorem C2_discovery_amended (registry : List String) (pre : List PluginModule)
    (m : PluginModule) (post : List PluginModule)
    (hpre : ∀ x ∈ pre, x.raisesOnImport = false)
    (hm : m.raisesOnImport = true)
    (hname : pyStartsWith m.name "_" = false) :
    import_submodules_server registry (pre ++ m :: post)
      = registry ++ capsConcat (nonUnderscore pre)
    ∧ import_submodules_utils registry (pre ++ m :: post)
      = registry ++ capsConcat ((pre ++ m :: post).filter utilsEligible) := by
  constructor
  · rw [import_server_through pre registry (m :: post) hpre]
    simp [import_submodules_server, hname, hm]
  · exact import_utils_complete (pre ++ m :: post) registry

/-- Witness for C2 (amended): with modules `tool_a`, `bad` (raises),
`tool_c`, the startup scan registers only `tool_a`'s capability, while the
utils variant registers both `tool_a`'s and `tool_c`'s. -/
theorem C2_discovery_amended_witness :
    import_submodules_server []
      [⟨"tool_a", false, ["a"]⟩, ⟨"bad", true, []⟩, ⟨"tool_c", false, ["c"]⟩]
      = ["a"]
    ∧ import_submodules_utils []
      [⟨"tool_a", false, ["a"]⟩, ⟨"bad", true, []⟩, ⟨"tool_c", false, ["c"]⟩]
      = ["a", "c"] :=
  C2_discovery_amended [] [⟨"tool_a", false, ["a"]⟩] ⟨"bad", true, []⟩
    [⟨"tool_c", false, ["c"]⟩] (by simp) rfl rfl

/-- Counterexample to C2 as stated: a directory of three modules whose first
raises on import; the claim says the other two end up registered, but the
startup scan registers neither. -/
theorem C2_counterexample :
    import_submodules_server []
      [⟨"bad_tool", true, []⟩, ⟨"tool_b", false, ["b"]⟩, ⟨"tool_c", false, ["c"]⟩]
      = []
    ∧ ([] : List String) ≠ ["b", "c"] :=
  ⟨rfl, by decide⟩

/-! ## Claim C3 -/

/-- Claim C3, amended: `echo` with message `Hi` and repeat 3 returns the
three-line string; repeat 15 returns a user-facing error string containing
`cannot exceed 10`; repeat absent defaults to 1 and returns the message
once; repeat 0 (like any repeat below 1) returns the user-facing error
`Error: repeat must be at least 1` rather than echoing; on the valid domain
the result is the message joined `repeat` times; `echo` is a total function
into strings, so validation failures and exceptions become user-facing error
strings rather than raises. -/
theorem C3_echo_amended :
    echo "Hi" 3 = "Hi\nHi\nHi"
    ∧ pyContains (echo "Hi" 15) "cannot exceed 10" = true
    ∧ echoNoRepeatArg "Hi" = "Hi"
    ∧ echo "Hi" 0 = "Error: repeat must be at least 1"
    ∧ (∀ (m : String) (r : Int), m ≠ "" → 1 ≤ r → r ≤ 10 →
        echo m r = pyJoin "\n" (List.replicate r.toNat m)) := by
  refine ⟨rfl, rfl, rfl, rfl, ?_⟩
  intro m r hm h1 h10
  unfold echo
  rw [if_neg hm, if_neg (by omega), if_neg (by omega)]

/-- Witness for C3 (amended): the valid-domain clause at message `Yo`,
repeat 2. -/
theorem C3_echo_amended_witness :
    echo "Yo" 2 = "Yo\nYo" :=
  (C3_echo_amended.2.2.2.2 "Yo" 2 (by decide) (by decide) (by decide)).trans rfl

/-- Counterexample to C3 as stated: `repeat: 0` does not default to one
repetition — the tool returns the validation error string (as the repo's own
test `test_echo_repeat_too_low` expects), not the message once. -/
theorem C3_counterexample :
    echo "Hi" 0 = "Error: repeat must be at least 1"
    ∧ echo "Hi" 0 ≠ "Hi" :=
  ⟨rfl, by decide⟩

/-! ## Claim C4 -/

/-- Claim C4, amended: `reload()` re-executes load and substitution and its
final state is the fully substituted tree, but the replacement is not a
single swap of a fully built tree: `self._config` is assigned twice — first
the loaded, unsubstituted tree (line 115), then the substituted tree
(line 68) — so a reader between the two assignments observes the
loaded-but-not-yet-substituted tree. -/
theorem C4_reload_amended (env : Env) (fileTree : YVal) :
    Config.reloadStates env fileTree = [fileTree, (substVal env fileTree).1]
    ∧ (Config.reloadStates env fileTree).getLast? = some ((substVal env fileTree).1)
    ∧ (Config.reloadStates env fileTree).head? = some fileTree :=
  ⟨rfl, rfl, rfl⟩

/-- Counterexample to C4 as stated: with `DB_PASSWORD=hunter2` in the
environment and a file tree holding the placeholder, the first state
`reload` stores in `self._config` is the loaded tree still containing the
unsubstituted placeholder, and it differs from the substituted final tree —
so a concurrent reader can observe a loaded-but-not-yet-substituted tree,
contradicting the single-swap claim. -/
theorem C4_counterexample :
    Config.reloadStates (fun n => if n = "DB_PASSWORD" then some "hunter2" else none)
      (.dict (.cons "password" (.str "$\x7bDB_PASSWORD\x7d") .nil))
      = [.dict (.cons "password" (.str "$\x7bDB_PASSWORD\x7d") .nil),
         .dict (.cons "password" (.str "hunter2") .nil)]
    ∧ (YVal.dict (.cons "password" (.str "$\x7bDB_PASSWORD\x7d") .nil))
      ≠ .dict (.cons "password" (.str "hunter2") .nil) :=
  ⟨rfl, by simp⟩

/-! ## Claim C1 -/

/-- Claim C1, amended: with authentication enabled and the path outside the
allow-list, an `Authorization` header that is absent or present-but-empty is
rejected 401 with the missing-header body (the source guards with Python
truthiness `if not auth_header`); a non-empty header without the `Bearer `
prefix is rejected 401 with the format body; a wrong token is rejected 403;
a matching token is forwarded; allow-listed paths are always forwarded with
no credential check.  Stated as: the middleware decision equals the amended
specification decision on every input. -/
theorem C1_auth_dispatch (env : Env) (tree : YVal) (req : Request) :
    AuthenticationMiddleware.dispatch env tree req = claimAuthAmended env tree req := by
  unfold AuthenticationMiddleware.dispatch claimAuthAmended
  cases hauth : req.authorization with
  | none => simp [Request.authHeaderVal, hauth, YVal.truthy]
  | some h =>
    by_cases hh : h = ""
    · subst hh
      simp [Request.authHeaderVal, hauth, YVal.truthy]
    · simp [Request.authHeaderVal, hauth, YVal.truthy, hh]

/-- Counterexample to C1 as stated: an `Authorization` header that is present
with an empty value does not start with `Bearer `, so the claim classifies it
as the 401 format rejection, but the middleware returns the 401
missing-header rejection (the source tests `if not auth_header`, which is
also true for the empty string). -/
theorem C1_counterexample :
    AuthenticationMiddleware.dispatch
      (fun n => if n = "AUTH_ENABLED" then some "true"
        else if n = "AUTH_TOKEN" then some "secret123456789012345678901234" else none)
      (.dict .nil)
      { method := "POST", path := "/mcp", authorization := some "" }
      = .rejected 401 missingAuthBody
    ∧ claimAuthOriginal
      (fun n => if n = "AUTH_ENABLED" then some "true"
        else if n = "AUTH_TOKEN" then some "secret123456789012345678901234" else none)
      (.dict .nil)
      { method := "POST", path := "/mcp", authorization := some "" }
      = .rejected 401 invalidFormatBody
    ∧ pyStartsWith "" "Bearer " = false
    ∧ missingAuthBody ≠ invalidFormatBody :=
  ⟨rfl, rfl, rfl, by simp [missingAuthBody, invalidFormatBody]⟩

/-! ## Claim C6 -/

/-- With authentication enabled, a request the authentication middleware
rejects produces — through the full registered chain — the rejection
response tagged with the correlation and hostname headers, together with the
arrival and completion log lines, independently of the inner application. -/
theorem pipeline_rejected (env : Env) (tree : YVal) (cid hostname : String)
    (inner : Handler) (req : Request) (s : Nat) (b : YVal)
    (henabled : (Config.is_authentication_enabled env tree).truthy = true)
    (hdisp : AuthenticationMiddleware.dispatch env tree req = .rejected s b) :
    serverPipeline env tree cid hostname inner req
      = ({ status := s, body := b,
           headers := [("X-Correlation-ID", cid), ("X-Served-By", hostname),
                       ("Access-Control-Allow-Origin", "*")] },
         [.reqArrow cid req.method req.path,
          .reqDone cid (if s ≥ 500 then "error" else if s ≥ 400 then "warning" else "info")
            s req.method req.path]) := by
  have hc : allowListedPaths.contains req.path = false := by
    by_contra hcc
    rw [Bool.not_eq_false] at hcc
    unfold AuthenticationMiddleware.dispatch at hdisp
    rw [hcc] at hdisp
    simp at hdisp
  have hskip : ¬(req.path = "/healthz" ∨ req.path = "/health") := by
    simp [allowListedPaths] at hc
    tauto
  unfold serverPipeline
  rw [henabled]
  have hstack : serverMiddlewareStack true = [MWTag.cors, .hostname, .logging, .auth] := rfl
  rw [hstack]
  simp only [applyStack, interpMW]
  simp [corsMW, hostnameMW, loggingMW, authMW, hdisp, hskip]

/-- A request to an allow-listed path flows through the full chain to the
inner application regardless of credentials or the authentication toggle:
status and body are the inner response's (only headers are added). -/
theorem pipeline_allowlisted (env : Env) (tree : YVal) (cid hostname : String)
    (inner : Handler) (req : Request)
    (hc : allowListedPaths.contains req.path = true) :
    (serverPipeline env tree cid hostname inner req).1.status = (inner req).1.status
    ∧ (serverPipeline env tree cid hostname inner req).1.body = (inner req).1.body := by
  have hfwd : AuthenticationMiddleware.dispatch env tree req = .forwarded := by
    unfold AuthenticationMiddleware.dispatch
    rw [hc]
    rfl
  unfold serverPipeline
  cases ha : (Config.is_authentication_enabled env tree).truthy with
  | true =>
    have hstack : serverMiddlewareStack true = [MWTag.cors, .hostname, .logging, .auth] := rfl
    rw [hstack]
    simp only [applyStack, interpMW]
    by_cases hsk : req.path = "/healthz" ∨ req.path = "/health"
    · simp [corsMW, hostnameMW, loggingMW, authMW, hfwd, hsk]
    · simp [corsMW, hostnameMW, loggingMW, authMW, hfwd, hsk]
  | false =>
    have hstack : serverMiddlewareStack false = [MWTag.cors, .hostname, .logging] := rfl
    rw [hstack]
    simp only [applyStack, interpMW]
    by_cases hsk : req.path = "/healthz" ∨ req.path = "/health"
    · simp [corsMW, hostnameMW, loggingMW, hsk]
    · simp [corsMW, hostnameMW, loggingMW, hsk]

/-- Claim C5, amended: the registered middleware chain wraps requests
outermost to innermost as CORS, then hostname tagging, then request logging,
then authentication (Starlette `add_middleware` makes the last-added
middleware outermost, and server.py adds authentication, logging, hostname,
CORS in that order) — not hostname before CORS as stated.  The ordering
consequences hold: with authentication enabled, a rejected request is
answered by the middleware without ever invoking the inner dispatcher, is
still logged, and carries the `X-Correlation-ID` (and `X-Served-By`)
headers; allow-listed paths reach the inner application without any
credential check; hostname tagging changes only response headers. -/
theorem C5_pipeline_amended (env : Env) (tree : YVal) (cid hostname : String)
    (inner : Handler) (req : Request) :
    serverMiddlewareStack true = [MWTag.cors, .hostname, .logging, .auth]
    ∧ (∀ (s : Nat) (b : YVal),
        (Config.is_authentication_enabled env tree).truthy = true →
        AuthenticationMiddleware.dispatch env tree req = .rejected s b →
        serverPipeline env tree cid hostname inner req
          = ({ status := s, body := b,
               headers := [("X-Correlation-ID", cid), ("X-Served-By", hostname),
                           ("Access-Control-Allow-Origin", "*")] },
             [.reqArrow cid req.method req.path,
              .reqDone cid (if s ≥ 500 then "error" else if s ≥ 400 then "warning" else "info")
                s req.method req.path]))
    ∧ (∀ inner2 : Handler,
        (Config.is_authentication_enabled env tree).truthy = true →
        (∃ s b, AuthenticationMiddleware.dispatch env tree req = .rejected s b) →
        serverPipeline env tree cid hostname inner req
          = serverPipeline env tree cid hostname inner2 req)
    ∧ (allowListedPaths.contains req.path = true →
        (serverPipeline env tree cid hostname inner req).1.status = (inner req).1.status
        ∧ (serverPipeline env tree cid hostname inner req).1.body = (inner req).1.body)
    ∧ ((hostnameMW hostname inner req).1.status = (inner req).1.status
       ∧ (hostnameMW hostname inner req).1.body = (inner req).1.body
       ∧ (hostnameMW hostname inner req).1.headers
           = (inner req).1.headers ++ [("X-Served-By", hostname)]
       ∧ (hostnameMW hostname inner req).2 = (inner req).2) := by
  refine ⟨rfl, ?_, ?_, ?_, ?_⟩
  · intro s b henabled hdisp
    exact pipeline_rejected env tree cid hostname inner req s b henabled hdisp
  · intro inner2 henabled hrej
    obtain ⟨s, b, hdisp⟩ := hrej
    rw [pipeline_rejected env tree cid hostname inner req s b henabled hdisp,
      pipeline_rejected env tree cid hostname inner2 req s b henabled hdisp]
  · intro hc
    exact pipeline_allowlisted env tree cid hostname inner req hc
  · simp [hostnameMW]

/-- Witness for C5 (amended): with authentication enabled and no header, a
request to `/mcp` comes back 401 through the whole chain with correlation,
hostname and CORS headers and a warning-level log pair, and the inner
handler is never consulted. -/
theorem C5_pipeline_amended_witness :
    serverPipeline
      (fun n => if n = "AUTH_ENABLED" then some "true"
        else if n = "AUTH_TOKEN" then some "tok" else none)
      (.dict .nil) "abc12345" "node1"
      (fun _ => ({ status := 200, body := .str "OK", headers := [] }, []))
      { method := "POST", path := "/mcp", authorization := none }
      = ({ status := 401, body := missingAuthBody,
           headers := [("X-Correlation-ID", "abc12345"), ("X-Served-By", "node1"),
                       ("Access-Control-Allow-Origin", "*")] },
         [.reqArrow "abc12345" "POST" "/mcp",
          .reqDone "abc12345" "warning" 401 "POST" "/mcp"]) :=
  (C5_pipeline_amended
    (fun n => if n = "AUTH_ENABLED" then some "true"
      else if n = "AUTH_TOKEN" then some "tok" else none)
    (.dict .nil) "abc12345" "node1"
    (fun _ => ({ status := 200, body := .str "OK", headers := [] }, []))
    { method := "POST", path := "/mcp", authorization := none }).2.1
    401 missingAuthBody rfl rfl

/-- Counterexample to C5 as stated: the outer-to-inner order of the
registered chain is CORS, hostname, logging, authentication — the claim puts
hostname tagging outside CORS, but CORS (added last) is the outermost
middleware. -/
theorem C5_counterexample :
    serverMiddlewareStack true = [MWTag.cors, .hostname, .logging, .auth]
    ∧ serverMiddlewareStack true ≠ [MWTag.hostname, .cors, .logging, .auth] :=
  ⟨rfl, by decide⟩

